import Mathlib

/-!
# Verification of the album-analysis dashboard pipeline

A shallow embedding of `src/album-analysis.py`: the fetch/extract/build/filter
pipeline and its helpers, translated to Lean, with theorems settling the frozen
claims about the program.

Modelling conventions:
* Python strings are Lean `String`; the helpers below reimplement the exact
  Python primitives the source uses (`str.split`, `str.strip`, `float`, `int`,
  and the regex `\d+\.?\d*`) over `List Char`, so that every definition is
  executable and kernel-reducible.
* Python `float` values are modelled as `Rat`.  The non-finite literals
  (`inf`, `nan`) and underscore digit separators accepted by Python `float`
  and `int` are outside the model; no claim touches them.
* The DOM queries performed by BeautifulSoup are modelled by an abstract page
  structure (`Page`, `Row`, `Cell`, `Link`) whose fields hold exactly the
  results of the queries the source performs.
-/

/-- Python `str.isspace`-style whitespace trim applied to a list of
characters, both ends: models `str.strip()` as used by `float`, `int`,
`get_text(strip=True)` and `parse_date`. -/
def trimChars (l : List Char) : List Char :=
  ((l.dropWhile Char.isWhitespace).reverse.dropWhile Char.isWhitespace).reverse

/-- Models Python `s.split(sep)` for a single-character separator `sep`
(always returns at least one piece; adjacent separators yield empty pieces). -/
def splitOnChar (sep : Char) : List Char → List (List Char)
  | [] => [[]]
  | c :: rest =>
    if c = sep then [] :: splitOnChar sep rest
    else
      match splitOnChar sep rest with
      | h :: t => (c :: h) :: t
      | [] => [[c]]

/-- Boolean prefix test on character lists (used for `str.startswith` and for
multi-character `str.split`). -/
def isPrefixOfChars : List Char → List Char → Bool
  | [], _ => true
  | _ :: _, [] => false
  | a :: as, b :: bs => a == b && isPrefixOfChars as bs

/-- Boolean substring test on character lists: models Python `needle in hay`. -/
def containsChars (needle : List Char) : List Char → Bool
  | [] => isPrefixOfChars needle []
  | c :: rest => isPrefixOfChars needle (c :: rest) || containsChars needle rest

/-- Models Python `s.split(sep)` for a multi-character separator.  The first
argument is fuel (instantiated with the length of the list) keeping the
recursion structural; the `0` branch is unreachable when fuel ≥ length. -/
def splitOnStrAux (sep : List Char) : Nat → List Char → List (List Char)
  | _, [] => [[]]
  | 0, l => [l]
  | n + 1, c :: rest =>
    if isPrefixOfChars sep (c :: rest) && !sep.isEmpty then
      [] :: splitOnStrAux sep n (List.drop (sep.length - 1) rest)
    else
      match splitOnStrAux sep n rest with
      | h :: t => (c :: h) :: t
      | [] => [[c]]

/-- Models Python `s.split(sep)` on strings (non-empty `sep`). -/
def splitOnStr (sep s : String) : List String :=
  (splitOnStrAux sep.toList s.toList.length s.toList).map String.mk

/-- Models the Python composite `s.split(sep)[-1]` for a one-character `sep`. -/
def pySplitLast (sep : Char) (s : String) : String :=
  String.mk ((splitOnChar sep s.toList).getLastD [])

/-- Models the Python composite `s.split(sep)[0]` for a one-character `sep`. -/
def pySplitHead (sep : Char) (s : String) : String :=
  String.mk ((splitOnChar sep s.toList).headD [])

/-- Models Python `s.startswith(pre)`. -/
def pyStartsWith (s pre : String) : Bool :=
  isPrefixOfChars pre.toList s.toList

/-- Models Python `needle in hay` on strings. -/
def pyContains (needle hay : String) : Bool :=
  containsChars needle.toList hay.toList

/-- Numeric value of a digit string, most significant digit first. -/
def digitsToNat (l : List Char) : Nat :=
  l.foldl (fun n c => 10 * n + (c.toNat - 48)) 0

/-- A non-empty all-digit string parsed to a natural number, `none` otherwise. -/
def parseDigitsNat (l : List Char) : Option Nat :=
  if l.isEmpty then none
  else if l.all Char.isDigit then some (digitsToNat l) else none

/-- Exponent tail of a Python float literal, after the `e`/`E` marker: an
optional sign followed by at least one digit.  The mantissa is carried as a
numerator/denominator pair of naturals so the rational is assembled by a
single `mkRat` (keeping every definition kernel-reducible). -/
def parseExp (n d : Nat) : List Char → Option Rat
  | [] => none
  | c :: r =>
    if c = '-' then (parseDigitsNat r).map (fun e => mkRat n (d * 10 ^ e))
    else if c = '+' then (parseDigitsNat r).map (fun e => mkRat ((n * 10 ^ e : Nat)) d)
    else (parseDigitsNat (c :: r)).map (fun e => mkRat ((n * 10 ^ e : Nat)) d)

/-- The part of a Python float literal after the mantissa `n / d`: empty, or
an `e`/`E` exponent. -/
def parseExpPart (n d : Nat) (l : List Char) : Option Rat :=
  match l with
  | [] => some (mkRat n d)
  | c :: r => if c = 'e' ∨ c = 'E' then parseExp n d r else none

/-- Sign-free Python float literal: `digits`, `digits.`, `digits.digits`,
`.digits`, each optionally followed by an exponent. -/
def parseUFloat (l : List Char) : Option Rat :=
  let ip := l.takeWhile Char.isDigit
  match l.dropWhile Char.isDigit with
  | [] => if ip.isEmpty then none else some (mkRat (digitsToNat ip) 1)
  | c :: r2 =>
    if c = '.' then
      let fp := r2.takeWhile Char.isDigit
      if ip.isEmpty && fp.isEmpty then none
      else
        parseExpPart (digitsToNat ip * 10 ^ fp.length + digitsToNat fp) (10 ^ fp.length)
          (r2.dropWhile Char.isDigit)
    else
      if ip.isEmpty then none else parseExpPart (digitsToNat ip) 1 (c :: r2)

/-- Models Python `float(s)` on the finite decimal grammar: optional
surrounding whitespace, optional sign, mantissa, optional exponent.
Returns `none` exactly when `float` raises `ValueError`. -/
def pyFloat (s : String) : Option Rat :=
  match trimChars s.toList with
  | [] => none
  | c :: r =>
    if c = '-' then (parseUFloat r).map Neg.neg
    else if c = '+' then parseUFloat r
    else parseUFloat (c :: r)

/-- Models Python `int(s)`: optional surrounding whitespace, optional sign,
at least one digit and nothing else.  Returns `none` exactly when `int`
raises `ValueError`. -/
def pyInt (s : String) : Option Int :=
  match trimChars s.toList with
  | [] => none
  | c :: r =>
    if c = '-' then (parseDigitsNat r).map (fun n => -(n : Int))
    else if c = '+' then (parseDigitsNat r).map (fun n => (n : Int))
    else (parseDigitsNat (c :: r)).map (fun n => (n : Int))

/-!
## `get_spotify_urls`

Models the source function of the same name: empty input (the only falsy
`str`; `pd.isna` is `False` on every `str`) yields `("", "")`; a
`spotify:album:` URI takes the text after the last `:` as the album id; a URL
containing `open.spotify.com` takes the text after the last `/` up to the
first `?`; anything else yields `("", "")`.
-/

/-- The web URL built by `get_spotify_urls` from an album id
(`f-string` on line 29 of the source). -/
def spotifyWebUrl (album_id : String) : String :=
  "https://open.spotify.com/album/" ++ album_id

/-- The app URI built by `get_spotify_urls` from an album id
(`f-string` on line 30 of the source). -/
def spotifyAppUrl (album_id : String) : String :=
  "spotify:album:" ++ album_id

/-- Models `get_spotify_urls` (source lines 16-32). -/
def get_spotify_urls (url : String) : String × String :=
  if url = "" then ("", "")
  else if pyStartsWith url "spotify:album:" then
    let album_id := pySplitLast ':' url
    (spotifyWebUrl album_id, spotifyAppUrl album_id)
  else if pyContains "open.spotify.com" url then
    let album_id := pySplitHead '?' (pySplitLast '/' url)
    (spotifyWebUrl album_id, spotifyAppUrl album_id)
  else ("", "")

/-!
## `parse_date`

Models `parse_date` (source lines 95-104): truncate at the first `GMT`,
strip, then `datetime.strptime(s, "%a %b %d %Y %H:%M:%S")`; any
`ValueError` is reported and `None` is returned.  The `strptime` format is
modelled faithfully: whitespace-separated tokens, case-insensitive
abbreviated weekday and month names, 1-2 digit day in 1..31, exactly 4 digit
year, `H:M:S` time with the ranges the format enforces, and the
`datetime` constructor check that the day exists in the given month
(year at least 1).  Only the calendar date is retained (day precision:
the pipeline uses nothing finer). -/

/-- Whitespace-separated tokens of a character list (runs of whitespace
separate, none kept), matching how a space in a `strptime` format matches a
whitespace run in the input. -/
def splitOnPred (p : Char → Bool) : List Char → List (List Char)
  | [] => [[]]
  | c :: rest =>
    if p c then [] :: splitOnPred p rest
    else
      match splitOnPred p rest with
      | h :: t => (c :: h) :: t
      | [] => [[c]]

/-- The non-empty whitespace-separated words of a character list. -/
def wordsOf (l : List Char) : List (List Char) :=
  (splitOnPred Char.isWhitespace l).filter (fun w => !w.isEmpty)

/-- Case-insensitive comparison of a token against a fixed name, as
`strptime` matches day and month names. -/
def lowerEq (w : List Char) (s : String) : Bool :=
  w.map Char.toLower == s.toList

/-- `%a`: an abbreviated weekday name, case-insensitive. -/
def weekdayOk (w : List Char) : Bool :=
  lowerEq w "mon" || lowerEq w "tue" || lowerEq w "wed" || lowerEq w "thu" ||
  lowerEq w "fri" || lowerEq w "sat" || lowerEq w "sun"

/-- `%b`: an abbreviated month name, case-insensitive, to its number. -/
def monthNum (w : List Char) : Option Nat :=
  if lowerEq w "jan" then some 1
  else if lowerEq w "feb" then some 2
  else if lowerEq w "mar" then some 3
  else if lowerEq w "apr" then some 4
  else if lowerEq w "may" then some 5
  else if lowerEq w "jun" then some 6
  else if lowerEq w "jul" then some 7
  else if lowerEq w "aug" then some 8
  else if lowerEq w "sep" then some 9
  else if lowerEq w "oct" then some 10
  else if lowerEq w "nov" then some 11
  else if lowerEq w "dec" then some 12
  else none

/-- Gregorian leap-year rule, as used by `datetime`. -/
def leapYear (y : Nat) : Bool :=
  y % 4 == 0 && (y % 100 != 0 || y % 400 == 0)

/-- Days in a month, as validated by the `datetime` constructor. -/
def daysInMonth (y m : Nat) : Nat :=
  if m = 2 then (if leapYear y then 29 else 28)
  else if m = 4 ∨ m = 6 ∨ m = 9 ∨ m = 11 then 30
  else 31

/-- `%H:%M:%S`: the time-of-day part of the format (validated and then
discarded: the pipeline only uses the calendar date). -/
def parseTimeOk (w : List Char) : Bool :=
  match splitOnChar ':' w with
  | [h, m, s] =>
    match parseDigitsNat h, parseDigitsNat m, parseDigitsNat s with
    | some hv, some mv, some sv =>
      decide (h.length ≤ 2) && decide (m.length ≤ 2) && decide (s.length ≤ 2) &&
      decide (hv ≤ 23) && decide (mv ≤ 59) && decide (sv ≤ 59)
    | _, _, _ => false
  | _ => false

/-- A calendar date as produced by `parse_date`. -/
structure PyDate where
  year : Nat
  month : Nat
  day : Nat
deriving DecidableEq, Inhabited

/-- Models `parse_date` (source lines 95-104). -/
def parse_date (date_str : String) : Option PyDate :=
  let s := trimChars ((splitOnStr "GMT" date_str).headD "").toList
  match wordsOf s with
  | [wd, mon, d, y, hms] =>
    match monthNum mon, parseDigitsNat d, parseDigitsNat y with
    | some m, some dv, some yv =>
      if weekdayOk wd && decide (d.length ≤ 2) && decide (1 ≤ dv) && decide (dv ≤ 31) &&
          decide (y.length = 4) && decide (1 ≤ yv) && parseTimeOk hms &&
          decide (dv ≤ daysInMonth yv m)
      then some ⟨yv, m, dv⟩ else none
    | _, _, _ => none
  | _ => none

/-!
## The DOM model and `extract_album_data`

The extractor performs a fixed set of BeautifulSoup queries per table row;
the structures below hold exactly the results of those queries.
-/

/-- An anchor element: its stripped text and its `href` attribute
(absent attribute modelled as `none`; the source reads it with
`.get('href', '')`). -/
structure Link where
  text : String
  href : Option String
deriving DecidableEq, Inhabited

/-- A table cell (`td`), holding the results of the queries the source
performs on cells: the stripped full text (`get_text(strip=True)`), the
first anchor with class `link--no-style` (queried on cell 0), the stripped
text of the first `div` whose id contains `rating` (queried on cell 2), and
the first anchor (queried on cell 2). -/
structure Cell where
  text : String
  noStyleLink : Option Link
  ratingDivText : Option String
  anchor : Option Link
deriving DecidableEq, Inhabited

/-- A table row (`tr`): its `data-controversial` attribute (if present), its
`td` cells in order, and the stripped text of the row's `td` with id
`group-stats--listened-albums--date` (if present). -/
structure Row where
  controversyAttr : Option String
  cells : List Cell
  dateTdText : Option String
deriving DecidableEq, Inhabited

/-- The parsed page, as far as `extract_album_data` inspects it: either the
`Rated Albums` heading is missing, or the following table is missing, or the
table is present with its `tr` rows (header row first). -/
inductive Page where
  | noHeading
  | noTable
  | table (trs : List Row)
deriving DecidableEq, Inhabited

/-- One extracted album record (the per-row dict of the source). -/
structure Album where
  album : String
  artist : String
  rating : Rat
  votes : Int
  date : Option PyDate
  spotify_url : String
  details_url : String
  controversy : Rat
deriving DecidableEq, Inhabited

/-- The outcome of processing one table row: a record appended to the
result, a silent skip (fewer than 4 cells), or a drop reported through
`st.error` (an exception caught by the per-row handler). -/
inductive RowResult where
  | ok (a : Album)
  | skipped
  | dropped
deriving DecidableEq, Inhabited

/-- `float(row.get('data-controversial', 0))` (source line 136): an absent
attribute defaults to the number `0`; a present attribute is parsed by
`float`, whose `ValueError` propagates to the per-row handler. -/
def controversy_of (r : Row) : Option Rat :=
  match r.controversyAttr with
  | none => some 0
  | some s => pyFloat s

/-- The rating logic of source lines 148-164: start from `0`; parse the
nested rating `div` text if present, keeping `0` on failure; then, whenever
the rating equals `0`, scan the full cell text for the first match of the
regex pattern `d+.?d*` (digits, optional dot, digits) and parse it, again
keeping the current value on failure. -/
def matchNumber (l : List Char) : List Char :=
  let d1 := l.takeWhile Char.isDigit
  let r1 := l.dropWhile Char.isDigit
  if r1.headD ' ' = '.' then d1 ++ '.' :: (r1.drop 1).takeWhile Char.isDigit else d1

/-- The first (leftmost) match of the numeric regex in a character list. -/
def findNumberChars : List Char → Option (List Char)
  | [] => none
  | c :: rest =>
    if c.isDigit then some (matchNumber (c :: rest))
    else findNumberChars rest

/-- `re.findall(r'd+.?d*', text)[0]` on a string, `none` when there is no
match (empty `findall` result). -/
def findNumber (s : String) : Option String :=
  (findNumberChars s.toList).map String.mk

/-- The rating extracted from cell 2 (source lines 148-164). -/
def ratingOf (c : Cell) : Rat :=
  let rating : Rat := 0
  let rating :=
    match c.ratingDivText with
    | some t =>
      match pyFloat t with
      | some v => v
      | none => rating
    | none => rating
  if rating = 0 then
    match findNumber c.text with
    | some nstr =>
      match pyFloat nstr with
      | some v => v
      | none => rating
    | none => rating
  else rating

/-- `group_url.split('groups/')[-1].split('/')[0]` (source line 129; the
surrounding `try` is vacuous since `str.split` never raises). -/
def group_name_of (group_url : String) : String :=
  pySplitHead '/' ((splitOnStr "groups/" group_url).getLastD "")

/-- The fixed base of details URLs (source line 113). -/
def base_url : String := "https://1001albumsgenerator.com/groups/"

/-- Processing of one non-header table row (the body of the `for` loop,
source lines 134-196), in source order: controversy attribute, cell-count
guard, album link, artist, rating, votes, date, details link.  The two
fallible conversions (`float` on the attribute, `int` on the votes cell)
are the only exceptions the loop body can raise; both are caught by the
per-row handler, which reports and drops the row. -/
def processRow (group_name : String) (r : Row) : RowResult :=
  match controversy_of r with
  | none => .dropped
  | some controversy =>
    if r.cells.length < 4 then .skipped
    else
      let album_link := (r.cells.getD 0 default).noStyleLink
      let album_name := match album_link with | some l => l.text | none => "Unknown Album"
      let spotify_url := match album_link with | some l => l.href.getD "" | none => ""
      let artist := (r.cells.getD 1 default).text
      let rating := ratingOf (r.cells.getD 2 default)
      match pyInt (r.cells.getD 3 default).text with
      | none => .dropped
      | some votes =>
        let date := match r.dateTdText with
          | some t => parse_date t
          | none => none
        let details_path := match (r.cells.getD 2 default).anchor with
          | some l => l.href.getD ""
          | none => ""
        let details_url :=
          if details_path ≠ "" then
            base_url ++ group_name ++ "/albums/" ++ pySplitLast '/' details_path
          else ""
        .ok { album := album_name, artist := artist, rating := rating, votes := votes,
              date := date, spotify_url := spotify_url, details_url := details_url,
              controversy := controversy }

/-- The record a row result contributes to the album list. -/
def rowAlbumOpt : RowResult → Option Album
  | .ok a => some a
  | .skipped => none
  | .dropped => none

/-- Models `extract_album_data` (source lines 106-198): the two structure
checks, then the loop over `table.find_all('tr')[1:]`. -/
def extract_album_data (page : Page) (group_url : String) : List Album :=
  match page with
  | .noHeading => []
  | .noTable => []
  | .table trs =>
    (trs.drop 1).filterMap (fun row => rowAlbumOpt (processRow (group_name_of group_url) row))

/-- The number of per-row warnings (`st.error('Error processing row: ...')`)
the extraction surfaces; the missing-heading and missing-table errors are
separate fatal reports.  Warnings from `parse_date` are its own reports and
are not counted here. -/
def extract_row_warnings (page : Page) (group_url : String) : Nat :=
  match page with
  | .noHeading => 0
  | .noTable => 0
  | .table trs =>
    (trs.drop 1).countP (fun row => processRow (group_name_of group_url) row == .dropped)

/-!
## `create_dataframe`, `scrape_albums` and the session
-/

/-- One row of the built table: the record fields plus the derived calendar
columns (`None`-propagating, as `pd.to_datetime(None)` is `NaT` whose
`year`/`month` are missing). -/
structure DFRow where
  album : String
  artist : String
  rating : Rat
  votes : Int
  date : Option PyDate
  spotify_url : String
  details_url : String
  controversy : Rat
  year : Option Nat
  month : Option Nat
  decade : Option Nat
deriving DecidableEq, Inhabited

/-- The derived columns of source lines 205-207: `year`, `month`, and
`decade = (year // 10) * 10`. -/
def enrich (a : Album) : DFRow :=
  { album := a.album, artist := a.artist, rating := a.rating, votes := a.votes,
    date := a.date, spotify_url := a.spotify_url, details_url := a.details_url,
    controversy := a.controversy,
    year := a.date.map (fun d => d.year),
    month := a.date.map (fun d => d.month),
    decade := a.date.map (fun d => d.year / 10 * 10) }

/-- Models `create_dataframe` (source lines 200-212).  On an empty record
list, `pd.DataFrame([])` has no columns and `df['date']` raises `KeyError`
(caught by the caller): modelled as `none`. -/
def create_dataframe (albums : List Album) : Option (List DFRow) :=
  match albums with
  | [] => none
  | _ => some (albums.map enrich)

/-- The outcome of the HTTP fetch: a network/HTTP error
(`requests.get` or `raise_for_status` raising), or the parsed page. -/
def FetchOutcome : Type := Except Unit Page

/-- Models `scrape_albums` (source lines 214-225): any exception anywhere in
the pipeline is caught and an **empty** DataFrame is returned. -/
def scrape_albums (fetch : FetchOutcome) (url : String) : List DFRow :=
  match fetch with
  | .error _ => []
  | .ok page =>
    match create_dataframe (extract_album_data page url) with
    | none => []
    | some df => df

/-- The session state owned by one interactive session: the loaded table
and the last-update timestamp (abstract instant). -/
structure Session where
  df : List DFRow
  last_update : Option Nat
deriving DecidableEq, Inhabited

/-- The `Load/Refresh Data` handler (source lines 248-252): the scrape
result — whatever it is — replaces the table, and the timestamp is set to
`datetime.now()`, unconditionally. -/
def load_refresh (_s : Session) (fetch : FetchOutcome) (url : String) (now : Nat) : Session :=
  { df := scrape_albums fetch url, last_update := some now }

/-- A fetch invocation that fails fatally: network/HTTP failure, or the
`Rated Albums` heading or its table missing from the page. -/
def fatalFailure (fetch : FetchOutcome) : Prop :=
  fetch = .error () ∨ fetch = .ok .noHeading ∨ fetch = .ok .noTable

/-!
## Filter stage, sorting and aggregation helpers (from `main`)
-/

/-- The filter of source lines 298-302: `Series.between` is inclusive on
both ends, and the three masks are conjoined. -/
def apply_filters (ratingRange : Rat × Rat) (votesRange : Int × Int)
    (controversyRange : Rat × Rat) (df : List DFRow) : List DFRow :=
  df.filter (fun r =>
    decide (ratingRange.1 ≤ r.rating ∧ r.rating ≤ ratingRange.2) &&
    decide (votesRange.1 ≤ r.votes ∧ r.votes ≤ votesRange.2) &&
    decide (controversyRange.1 ≤ r.controversy ∧ r.controversy ≤ controversyRange.2))

/-- Models `filtered_df.nlargest(1, 'rating')` followed by `.iloc[0]`
(source line 345): the documented contract of `nlargest` with the default
`keep='first'` — the first row attaining the maximal rating (`none` only on
an empty table). -/
def nlargestRating : List DFRow → Option DFRow
  | [] => none
  | a :: rest =>
    match nlargestRating rest with
    | none => some a
    | some b => if b.rating > a.rating then some b else some a

/-!
## Concrete page material used by counterexamples and witnesses
-/

/-- A header row (always skipped by `[1:]`). -/
def headerRow : Row :=
  { controversyAttr := none, cells := [], dateTdText := none }

/-- A fully well-formed row: no controversy attribute, four cells, parseable
rating and votes. -/
def rowGood : Row :=
  { controversyAttr := none,
    cells := [{ text := "Album A", noStyleLink := some { text := "Album A", href := some "spotify:album:abc" },
                ratingDivText := none, anchor := none },
              { text := "Artist A", noStyleLink := none, ratingDivText := none, anchor := none },
              { text := "4.0", noStyleLink := none, ratingDivText := some "4.0",
                anchor := some { text := "Details", href := some "/web/albums/42" } },
              { text := "10", noStyleLink := none, ratingDivText := none, anchor := none }],
    dateTdText := some "Mon Jan 02 2023 10:00:00 GMT+0000" }

/-- Like `rowGood`, but its `data-controversial` attribute is present and
malformed (not a number). -/
def rowBadControversy : Row :=
  { rowGood with controversyAttr := some "abc" }

/-- Like `rowGood`, but its votes cell is non-numeric. -/
def rowBadVotes : Row :=
  { rowGood with
    cells := rowGood.cells.take 3 ++
      [{ text := "n/a", noStyleLink := none, ratingDivText := none, anchor := none }] }

/-- A row whose nested rating `div` parses successfully to `0` while the
full cell text holds the number `5.0`. -/
def rowZeroDiv : Row :=
  { rowGood with
    cells := [{ text := "Album Z", noStyleLink := some { text := "Album Z", href := some "u" },
                ratingDivText := none, anchor := none },
              { text := "Artist Z", noStyleLink := none, ratingDivText := none, anchor := none },
              { text := "5.0", noStyleLink := none, ratingDivText := some "0", anchor := none },
              { text := "10", noStyleLink := none, ratingDivText := none, anchor := none }] }

/-- A row whose nested rating text and votes cell hold negative numerals. -/
def rowNegative : Row :=
  { controversyAttr := none,
    cells := [{ text := "Album N", noStyleLink := some { text := "Album N", href := some "u" },
                ratingDivText := none, anchor := none },
              { text := "Artist N", noStyleLink := none, ratingDivText := none, anchor := none },
              { text := "", noStyleLink := none, ratingDivText := some "-1", anchor := none },
              { text := "-5", noStyleLink := none, ratingDivText := none, anchor := none }],
    dateTdText := none }

/-- The value produced by the fallback strategy of the rating logic (the
`if rating == 0` block of source lines 156-164) when entered with a current
rating of `0`: the first regex match of the cell text parsed by `float`,
with `0` kept on no match or parse failure. -/
def ratingFallback (c : Cell) : Rat :=
  match findNumber c.text with
  | some nstr =>
    match pyFloat nstr with
    | some v => v
    | none => 0
  | none => 0

/-- The rows of a page (empty when a structure landmark is missing). -/
def pageRows : Page → List Row
  | .noHeading => []
  | .noTable => []
  | .table trs => trs

/-- The nested rating text of a cell does not parse to a negative value
(decidable side condition used by the amended invariants claim). -/
def nonnegRatingDiv (c : Cell) : Bool :=
  match c.ratingDivText with
  | none => true
  | some t =>
    match pyFloat t with
    | none => true
    | some v => decide (0 ≤ v)

/-- The votes cell of a row does not parse to a negative integer (decidable
side condition used by the amended invariants claim). -/
def nonnegVotesCell (r : Row) : Bool :=
  match pyInt (r.cells.getD 3 default).text with
  | none => true
  | some n => decide (0 ≤ n)

/-- A cell whose nested rating `div` holds `4.5`. -/
def cellDiv45 : Cell :=
  { text := "4.5", noStyleLink := none, ratingDivText := some "4.5", anchor := none }

/-- The single table row scraped from the good one-row page (used by
witnesses). -/
def goodDF : DFRow :=
  (scrape_albums (.ok (.table [headerRow, rowGood])) "u").headD default


/-!
## Lemmas about the string helpers
-/

theorem splitOnChar_of_not_mem (sep : Char) (l : List Char) (h : sep ∉ l) :
    splitOnChar sep l = [l] := by
  induction l with
  | nil => rfl
  | cons c rest ih =>
    have hc : ¬ c = sep := fun he => h (he ▸ List.mem_cons_self c rest)
    have hr : sep ∉ rest := fun hm => h (List.mem_cons_of_mem _ hm)
    simp [splitOnChar, hc, ih hr]

theorem splitOnChar_ne_nil (sep : Char) (l : List Char) : splitOnChar sep l ≠ [] := by
  cases l with
  | nil => simp [splitOnChar]
  | cons c rest =>
    by_cases hc : c = sep
    · simp [splitOnChar, hc]
    · simp only [splitOnChar, if_neg hc]
      cases h : splitOnChar sep rest <;> simp

theorem splitOnChar_length_two (sep : Char) (l : List Char) (h : sep ∈ l) :
    2 ≤ (splitOnChar sep l).length := by
  induction l with
  | nil => cases h
  | cons c rest ih =>
    by_cases hc : c = sep
    · simp only [splitOnChar, if_pos hc, List.length_cons]
      have h1 : splitOnChar sep rest ≠ [] := splitOnChar_ne_nil sep rest
      cases hrs : splitOnChar sep rest with
      | nil => exact absurd hrs h1
      | cons a b => simp
    · have hm : sep ∈ rest := by
        rcases List.mem_cons.mp h with h1 | h1
        · exact absurd h1.symm hc
        · exact h1
      simp only [splitOnChar, if_neg hc]
      cases hrs : splitOnChar sep rest with
      | nil => exact absurd hrs (splitOnChar_ne_nil sep rest)
      | cons h2 t2 =>
        have := ih hm
        rw [hrs] at this
        simpa using this

theorem getLastD_splitOnChar_append (sep : Char) (l₁ l₂ : List Char) :
    (splitOnChar sep (l₁ ++ sep :: l₂)).getLastD [] = (splitOnChar sep l₂).getLastD [] := by
  induction l₁ with
  | nil =>
    have h1 : splitOnChar sep ([] ++ sep :: l₂) = [] :: splitOnChar sep l₂ := by
      simp [splitOnChar]
    rw [h1, List.getLastD_cons]
  | cons c l₁ ih =>
    by_cases hc : c = sep
    · simp only [List.cons_append, splitOnChar, if_pos hc, List.getLastD_cons]
      exact ih
    · simp only [List.cons_append, splitOnChar, if_neg hc]
      cases hrs : splitOnChar sep (l₁ ++ sep :: l₂) with
      | nil => exact absurd hrs (splitOnChar_ne_nil sep (l₁ ++ sep :: l₂))
      | cons h2 t2 =>
        have h2le := splitOnChar_length_two sep (l₁ ++ sep :: l₂) (by simp)
        rw [hrs] at ih h2le
        cases t2 with
        | nil => simp at h2le
        | cons a b =>
          rw [List.getLastD_cons] at ih ⊢
          rw [List.getLastD_cons] at ih ⊢
          exact ih

theorem isPrefixOfChars_append (l t : List Char) : isPrefixOfChars l (l ++ t) = true := by
  induction l with
  | nil => rfl
  | cons c cs ih => simp [isPrefixOfChars, ih]

theorem isPrefixOfChars_extend (n h t : List Char) (hp : isPrefixOfChars n h = true) :
    isPrefixOfChars n (h ++ t) = true := by
  induction n generalizing h with
  | nil => rfl
  | cons a as ih =>
    cases h with
    | nil => simp [isPrefixOfChars] at hp
    | cons b bs =>
      simp only [isPrefixOfChars, Bool.and_eq_true, beq_iff_eq] at hp
      simp [List.cons_append, isPrefixOfChars, hp.1, ih bs hp.2]

theorem containsChars_nil_needle (t : List Char) : containsChars [] t = true := by
  cases t <;> simp [containsChars, isPrefixOfChars]

theorem containsChars_extend (n h t : List Char) (hc : containsChars n h = true) :
    containsChars n (h ++ t) = true := by
  induction h with
  | nil =>
    cases n with
    | nil => simpa using containsChars_nil_needle t
    | cons a as => simp [containsChars, isPrefixOfChars] at hc
  | cons c rest ih =>
    simp only [containsChars, Bool.or_eq_true] at hc
    simp only [List.cons_append, containsChars, Bool.or_eq_true]
    rcases hc with hc | hc
    · exact Or.inl (by simpa using isPrefixOfChars_extend n (c :: rest) t hc)
    · exact Or.inr (ih hc)

theorem strToList_append (s t : String) : (s ++ t).toList = s.toList ++ t.toList := by
  cases s; cases t; rfl

theorem strMk_toList (s : String) : String.mk s.toList = s := rfl

theorem strNe_empty_append (s t : String) (h : s.toList ≠ []) : s ++ t ≠ "" := by
  intro he
  have h2 : (s ++ t).toList = [] := by rw [he]; rfl
  rw [strToList_append] at h2
  exact h (List.append_eq_nil.mp h2).1

/-!
## Helper theorems for the Spotify URL claim
-/

theorem get_spotify_urls_app (id : String) (h : ':' ∉ id.toList) :
    get_spotify_urls (spotifyAppUrl id) = (spotifyWebUrl id, spotifyAppUrl id) := by
  have hne : ¬ spotifyAppUrl id = "" := strNe_empty_append "spotify:album:" id (by decide)
  have hsw : pyStartsWith (spotifyAppUrl id) "spotify:album:" = true := by
    unfold pyStartsWith spotifyAppUrl
    rw [strToList_append]
    exact isPrefixOfChars_append ..
  have hid : pySplitLast ':' (spotifyAppUrl id) = id := by
    unfold pySplitLast spotifyAppUrl
    rw [strToList_append]
    have h1 : "spotify:album:".toList = "spotify:album".toList ++ [':'] := by decide
    rw [h1, List.append_assoc, List.singleton_append]
    rw [getLastD_splitOnChar_append, splitOnChar_of_not_mem ':' id.toList h]
    simp [strMk_toList]
  simp [get_spotify_urls, hne, hsw, hid]

theorem get_spotify_urls_web (id : String) (hs : '/' ∉ id.toList) (hq : '?' ∉ id.toList) :
    get_spotify_urls (spotifyWebUrl id) = (spotifyWebUrl id, spotifyAppUrl id) := by
  have hne : ¬ spotifyWebUrl id = "" :=
    strNe_empty_append "https://open.spotify.com/album/" id (by decide)
  have hnsw : pyStartsWith (spotifyWebUrl id) "spotify:album:" = false := by
    unfold pyStartsWith spotifyWebUrl
    rw [strToList_append]
    have h1 : "https://open.spotify.com/album/".toList =
        'h' :: "ttps://open.spotify.com/album/".toList := rfl
    have h2 : "spotify:album:".toList = 's' :: "potify:album:".toList := rfl
    rw [h1, h2, List.cons_append]
    simp only [isPrefixOfChars]
    rw [show (('s' : Char) == 'h') = false by decide, Bool.false_and]
  have hcon : pyContains "open.spotify.com" (spotifyWebUrl id) = true := by
    unfold pyContains spotifyWebUrl
    rw [strToList_append]
    exact containsChars_extend _ _ _ (by decide)
  have hid : pySplitHead '?' (pySplitLast '/' (spotifyWebUrl id)) = id := by
    have h1 : pySplitLast '/' (spotifyWebUrl id) = id := by
      unfold pySplitLast spotifyWebUrl
      rw [strToList_append]
      have h2 : "https://open.spotify.com/album/".toList =
          "https://open.spotify.com/album".toList ++ ['/'] := by decide
      rw [h2, List.append_assoc, List.singleton_append]
      rw [getLastD_splitOnChar_append, splitOnChar_of_not_mem '/' id.toList hs]
      simp [strMk_toList]
    rw [h1]
    unfold pySplitHead
    rw [splitOnChar_of_not_mem '?' id.toList hq]
    simp [strMk_toList]
  simp [get_spotify_urls, hne, hnsw, hcon, hid]

theorem get_spotify_urls_shape (url : String) :
    get_spotify_urls url = ("", "") ∨
    ∃ id, get_spotify_urls url = (spotifyWebUrl id, spotifyAppUrl id) := by
  unfold get_spotify_urls
  split
  · exact Or.inl rfl
  · split
    · exact Or.inr ⟨pySplitLast ':' _, rfl⟩
    · split
      · exact Or.inr ⟨pySplitHead '?' (pySplitLast '/' _), rfl⟩
      · exact Or.inl rfl

/-!
## Claim C10
-/

/-- Claim C10, counterexample: on input `"spotify:album:a/b"` the function
returns the non-empty pair built from the id `"a/b"`, but re-applying it to
the web element of that pair yields a different pair (the id is re-extracted
as just `"b"`), so the claimed idempotence on its own output fails. -/
theorem c10_counterexample :
    get_spotify_urls "spotify:album:a/b" = (spotifyWebUrl "a/b", spotifyAppUrl "a/b") ∧
    get_spotify_urls "spotify:album:a/b" ≠ ("", "") ∧
    get_spotify_urls (get_spotify_urls "spotify:album:a/b").1 ≠
      get_spotify_urls "spotify:album:a/b" := by decide

/-- Claim C10, amended: for every input, `get_spotify_urls` returns either
`("", "")` or the pair `(web, app)` built from an extracted album id; and
whenever that id contains no `:` the app element maps back to the same pair,
and whenever it contains no `/` and no `?` the web element maps back to the
same pair.  (Idempotence can fail when the id contains one of those three
characters, as the counterexample shows.) -/
theorem c10_amended_idempotence :
    (∀ url, get_spotify_urls url = ("", "") ∨
      ∃ id, get_spotify_urls url = (spotifyWebUrl id, spotifyAppUrl id)) ∧
    (∀ id : String, ':' ∉ id.toList →
      get_spotify_urls (spotifyAppUrl id) = (spotifyWebUrl id, spotifyAppUrl id)) ∧
    (∀ id : String, '/' ∉ id.toList → '?' ∉ id.toList →
      get_spotify_urls (spotifyWebUrl id) = (spotifyWebUrl id, spotifyAppUrl id)) :=
  ⟨get_spotify_urls_shape, get_spotify_urls_app, get_spotify_urls_web⟩

/-- Claim C10, witness: the amended theorem applied to the concrete id
`"abc"`. -/
theorem c10_witness :
    get_spotify_urls (spotifyAppUrl "abc") = (spotifyWebUrl "abc", spotifyAppUrl "abc") ∧
    get_spotify_urls (spotifyWebUrl "abc") = (spotifyWebUrl "abc", spotifyAppUrl "abc") :=
  ⟨c10_amended_idempotence.2.1 "abc" (by decide),
   c10_amended_idempotence.2.2 "abc" (by decide) (by decide)⟩

/-!
## Claim C9
-/

/-- Claim C9 (confirmed): the date string `"Mon Jan 02 2023 10:00:00
GMT+0000"` parses to the calendar date 2023-01-02, and the table builder
derives `year = 2023`, `month = 1`, `decade = 2020` from it. -/
theorem c9_parse_date_example :
    parse_date "Mon Jan 02 2023 10:00:00 GMT+0000" = some ⟨2023, 1, 2⟩ ∧
    create_dataframe
      [{ album := "Album A", artist := "Artist A", rating := 4, votes := 10,
         date := parse_date "Mon Jan 02 2023 10:00:00 GMT+0000",
         spotify_url := "", details_url := "", controversy := 0 }] =
    some
      [{ album := "Album A", artist := "Artist A", rating := 4, votes := 10,
         date := some ⟨2023, 1, 2⟩,
         spotify_url := "", details_url := "", controversy := 0,
         year := some 2023, month := some 1, decade := some 2020 }] := by decide

/-!
## Claim C1
-/

/-- Claim C1, counterexample: starting from a session holding a non-empty
table and a timestamp, a fatally failing refresh (network/HTTP error) does
not leave the session as it was: the table is replaced by an empty one and
the timestamp is overwritten. -/
theorem c1_counterexample :
    load_refresh { df := [default], last_update := some 5 } (.error ()) "u" 9 ≠
      { df := [default], last_update := some 5 } ∧
    (load_refresh { df := [default], last_update := some 5 } (.error ()) "u" 9).df = [] ∧
    (load_refresh { df := [default], last_update := some 5 } (.error ()) "u" 9).last_update =
      some 9 := by decide

/-- Claim C1, amended: when a fetch invocation fails fatally (network/HTTP
failure, or the `Rated Albums` heading or its table missing), the session's
table does **not** remain as it was: it is replaced by an empty table, and
the last-update timestamp is set to the time of the failed refresh. -/
theorem c1_amended_fatal_replaces (s : Session) (fetch : FetchOutcome) (url : String)
    (now : Nat) (h : fatalFailure fetch) :
    (load_refresh s fetch url now).df = [] ∧
    (load_refresh s fetch url now).last_update = some now := by
  rcases h with h | h | h <;> subst h <;>
    simp [load_refresh, scrape_albums, extract_album_data, create_dataframe]

/-- Claim C1, witness: the amended theorem applied to a concrete session and
a concrete fatal outcome (missing `Rated Albums` heading). -/
theorem c1_witness :
    (load_refresh { df := [default], last_update := some 5 } (.ok .noHeading) "u" 9).df = [] ∧
    (load_refresh { df := [default], last_update := some 5 }
      (.ok .noHeading) "u" 9).last_update = some 9 :=
  c1_amended_fatal_replaces _ _ _ _ (Or.inr (Or.inl rfl))

/-!
## Claim C2
-/

/-- Claim C2, counterexample: a row identical to a fully well-formed one
except that its `data-controversial` attribute holds the unparsable value
`"abc"` is dropped (with a warning) — no record with controversy `0` is
produced for it, so a malformed controversy attribute does cause the row to
be dropped. -/
theorem c2_counterexample :
    extract_album_data (.table [headerRow, rowBadControversy]) "u" = [] ∧
    extract_row_warnings (.table [headerRow, rowBadControversy]) "u" = 1 ∧
    rowBadControversy.controversyAttr = some "abc" ∧ pyFloat "abc" = none ∧
    4 ≤ rowBadControversy.cells.length ∧
    pyInt (rowBadControversy.cells.getD 3 default).text = some 10 := by decide

/-- Claim C2, amended: when the controversy attribute is **absent**, the row
still yields a record with controversy `0` (provided it passes the cell-count
guard and its votes cell parses); but when the attribute is present and
**malformed**, `float` raises and the per-row handler drops the row with a
warning. -/
theorem c2_amended_controversy (g : String) (r : Row) :
    (r.controversyAttr = none → ¬ r.cells.length < 4 →
      ∀ n, pyInt (r.cells.getD 3 default).text = some n →
        ∃ a, processRow g r = RowResult.ok a ∧ a.controversy = 0) ∧
    (∀ s, r.controversyAttr = some s → pyFloat s = none →
      processRow g r = RowResult.dropped) := by
  constructor
  · intro h0 h4 n hn
    simp only [processRow, controversy_of, h0, if_neg h4, hn]
    exact ⟨_, rfl, rfl⟩
  · intro s hs hf
    simp only [processRow, controversy_of, hs, hf]

/-- Claim C2, witness: the amended theorem applied to the concrete
attribute-free row `rowGood` and the concrete malformed row
`rowBadControversy`. -/
theorem c2_witness :
    (∃ a, processRow "g" rowGood = RowResult.ok a ∧ a.controversy = 0) ∧
    processRow "g" rowBadControversy = RowResult.dropped :=
  ⟨(c2_amended_controversy "g" rowGood).1 rfl (by decide) 10 (by decide),
   (c2_amended_controversy "g" rowBadControversy).2 "abc" rfl (by decide)⟩

/-!
## Claim C3
-/

/-- Claim C3, counterexample: in `rowZeroDiv` the nested rating element is
present and parses successfully (to `0`), yet the record's rating is `5`,
taken by the fallback scan of the cell text — so the fallback is also
attempted when the nested element parses successfully (to zero), and a
successful nested parse is not always the record's rating. -/
theorem c3_counterexample :
    (extract_album_data (.table [headerRow, rowZeroDiv]) "u").map Album.rating = [5] ∧
    (rowZeroDiv.cells.getD 2 default).ratingDivText = some "0" ∧
    pyFloat "0" = some 0 ∧ (5 : Rat) ≠ 0 := by decide

/-- Helper: when the nested rating element parses to a nonzero value, that
value is the rating and the fallback is not consulted. -/
theorem ratingOf_primary (c : Cell) (t : String) (v : Rat) (ht : c.ratingDivText = some t)
    (hv : pyFloat t = some v) (hv0 : v ≠ 0) : ratingOf c = v := by
  simp only [ratingOf, ht, hv, if_neg hv0]

/-- Helper: when the nested rating element is absent, unparsable, or parses
to `0`, the rating is the fallback value. -/
theorem ratingOf_eq_fallback (c : Cell)
    (h : c.ratingDivText = none ∨
      ∃ t, c.ratingDivText = some t ∧ (pyFloat t = none ∨ pyFloat t = some 0)) :
    ratingOf c = ratingFallback c := by
  rcases h with h | ⟨t, ht, hf | hf⟩
  · simp [ratingOf, h, ratingFallback]
  · simp [ratingOf, ht, hf, ratingFallback]
  · simp [ratingOf, ht, hf, ratingFallback]

/-- Helper: when the rating comes from the fallback and equals `0`, the
fallback either found no number or its number parsed to `0` (or failed). -/
theorem ratingFallback_cases (c : Cell) (hfb : ratingOf c = ratingFallback c)
    (h0 : ratingOf c = 0) :
    findNumber c.text = none ∨
    ∃ n, findNumber c.text = some n ∧ (pyFloat n = none ∨ pyFloat n = some 0) := by
  rcases hn : findNumber c.text with _ | n
  · exact Or.inl rfl
  · rcases hpn : pyFloat n with _ | v
    · exact Or.inr ⟨n, rfl, Or.inl hpn⟩
    · have hv : ratingFallback c = v := by simp [ratingFallback, hn, hpn]
      have hv0 : v = 0 := by rw [← hv, ← hfb, h0]
      exact Or.inr ⟨n, rfl, Or.inr (by rw [hpn, hv0])⟩

/-- Helper: a zero rating means both strategies failed or yielded zero. -/
theorem ratingOf_zero_inv (c : Cell) (h0 : ratingOf c = 0) :
    (c.ratingDivText = none ∨
      ∃ t, c.ratingDivText = some t ∧ (pyFloat t = none ∨ pyFloat t = some 0)) ∧
    (findNumber c.text = none ∨
      ∃ n, findNumber c.text = some n ∧ (pyFloat n = none ∨ pyFloat n = some 0)) := by
  rcases hd : c.ratingDivText with _ | t
  · have hfb := ratingOf_eq_fallback c (Or.inl hd)
    exact ⟨Or.inl rfl, ratingFallback_cases c hfb h0⟩
  · rcases hpt : pyFloat t with _ | v
    · have hfb := ratingOf_eq_fallback c (Or.inr ⟨t, hd, Or.inl hpt⟩)
      exact ⟨Or.inr ⟨t, rfl, Or.inl hpt⟩, ratingFallback_cases c hfb h0⟩
    · by_cases hv0 : v = 0
      · subst hv0
        have hfb := ratingOf_eq_fallback c (Or.inr ⟨t, hd, Or.inr hpt⟩)
        exact ⟨Or.inr ⟨t, rfl, Or.inr hpt⟩, ratingFallback_cases c hfb h0⟩
      · have h1 := ratingOf_primary c t v hd hpt hv0
        exact absurd (h1.symm.trans h0) hv0

/-- Claim C3, amended: the fallback scan is attempted exactly when the
nested rating element is absent, unparsable, **or parses to `0`** (the code
gates the fallback on `rating == 0`, not on parse failure); when the nested
element parses to a nonzero value, that value is the record's rating; and
the rating is `0` only when both strategies fail **or themselves yield
`0`**. -/
theorem c3_amended_rating (c : Cell) :
    (∀ t v, c.ratingDivText = some t → pyFloat t = some v → v ≠ 0 → ratingOf c = v) ∧
    ((c.ratingDivText = none ∨
      ∃ t, c.ratingDivText = some t ∧ (pyFloat t = none ∨ pyFloat t = some 0)) →
      ratingOf c = ratingFallback c) ∧
    (ratingOf c = 0 →
      (c.ratingDivText = none ∨
        ∃ t, c.ratingDivText = some t ∧ (pyFloat t = none ∨ pyFloat t = some 0)) ∧
      (findNumber c.text = none ∨
        ∃ n, findNumber c.text = some n ∧ (pyFloat n = none ∨ pyFloat n = some 0))) :=
  ⟨fun t v ht hv hv0 => ratingOf_primary c t v ht hv hv0,
   ratingOf_eq_fallback c,
   ratingOf_zero_inv c⟩

/-- Claim C3, witness: the amended theorem applied to a concrete cell whose
nested rating element parses to the nonzero value `4.5`. -/
theorem c3_witness : ratingOf cellDiv45 = mkRat 9 2 :=
  (c3_amended_rating cellDiv45).1 "4.5" (mkRat 9 2) rfl (by decide) (by decide)

/-!
## Claim C4
-/

/-- Claim C4 (confirmed): a row that reaches the votes conversion (its
controversy attribute parses or is absent, and it has at least 4 cells) and
whose votes cell is non-numeric is dropped with exactly one extra warning,
and the extracted records are identical to those of the same table without
the bad row — rows before and after it are unaffected. -/
theorem c4_bad_votes_row (url : String) (hdr r : Row) (pre post : List Row)
    (hc : controversy_of r ≠ none)
    (h4 : ¬ r.cells.length < 4)
    (hv : pyInt (r.cells.getD 3 default).text = none) :
    extract_album_data (.table (hdr :: (pre ++ r :: post))) url =
      extract_album_data (.table (hdr :: (pre ++ post))) url ∧
    extract_row_warnings (.table (hdr :: (pre ++ r :: post))) url =
      extract_row_warnings (.table (hdr :: (pre ++ post))) url + 1 := by
  have hdrop : processRow (group_name_of url) r = RowResult.dropped := by
    rcases hcv : controversy_of r with _ | cv
    · exact absurd hcv hc
    · simp only [processRow, hcv, if_neg h4, hv]
  constructor
  · simp only [extract_album_data, List.drop_one, List.tail_cons, List.filterMap_append,
      List.filterMap_cons, hdrop, rowAlbumOpt]
  · simp only [extract_row_warnings, List.drop_one, List.tail_cons, List.countP_append,
      List.countP_cons, hdrop]
    simp only [beq_self_eq_true, if_pos, cond_true]
    omega

/-- Claim C4, witness: the theorem applied to a concrete table with a good
row before and after the bad-votes row. -/
theorem c4_witness :
    extract_album_data (.table [headerRow, rowGood, rowBadVotes, rowGood]) "u" =
      extract_album_data (.table [headerRow, rowGood, rowGood]) "u" ∧
    extract_row_warnings (.table [headerRow, rowGood, rowBadVotes, rowGood]) "u" =
      extract_row_warnings (.table [headerRow, rowGood, rowGood]) "u" + 1 :=
  c4_bad_votes_row "u" headerRow rowBadVotes [rowGood] [rowGood]
    (by decide) (by decide) (by decide)

/-!
## Claim C6
-/

/-- Claim C6 (confirmed): filtering is monotonic — if each of the rating,
votes, and controversy intervals of the second filter contains the
corresponding interval of the first, every record passing the first filter
also passes the second. -/
theorem c6_filter_monotonic (df : List DFRow) (ra rb : Rat × Rat) (va vb : Int × Int)
    (ca cb : Rat × Rat)
    (h1 : rb.1 ≤ ra.1) (h2 : ra.2 ≤ rb.2) (h3 : vb.1 ≤ va.1) (h4 : va.2 ≤ vb.2)
    (h5 : cb.1 ≤ ca.1) (h6 : ca.2 ≤ cb.2) :
    ∀ x ∈ apply_filters ra va ca df, x ∈ apply_filters rb vb cb df := by
  intro x hx
  rw [apply_filters, List.mem_filter] at hx ⊢
  obtain ⟨hmem, hcond⟩ := hx
  simp only [Bool.and_eq_true, decide_eq_true_eq] at hcond
  obtain ⟨⟨⟨hr1, hr2⟩, hv1, hv2⟩, hc1, hc2⟩ := hcond
  refine ⟨hmem, ?_⟩
  simp only [Bool.and_eq_true, decide_eq_true_eq]
  exact ⟨⟨⟨h1.trans hr1, hr2.trans h2⟩, h3.trans hv1, hv2.trans h4⟩,
    h5.trans hc1, hc2.trans h6⟩

/-- Claim C6, witness: the theorem applied to a concrete one-row table,
widening the point ranges `[0, 0]` to `[-1, 1]`. -/
theorem c6_witness :
    (default : DFRow) ∈ apply_filters (-1, 1) (-1, 1) (-1, 1) [(default : DFRow)] :=
  c6_filter_monotonic [default] (0, 0) (-1, 1) (0, 0) (-1, 1) (0, 0) (-1, 1)
    (by decide) (by decide) (by decide) (by decide) (by decide) (by decide)
    default (by decide)

/-!
## Claim C8
-/

/-- Claim C8 (confirmed): on a non-empty table, `nlargest(1, 'rating')`
selects a record of maximal rating, and among ties the one occurring first
in table order: every record strictly before it rates strictly lower. -/
theorem c8_highest_rated (df : List DFRow) (h : df ≠ []) :
    ∃ r pre post, nlargestRating df = some r ∧ df = pre ++ r :: post ∧
      (∀ x ∈ pre, x.rating < r.rating) ∧ (∀ x ∈ df, x.rating ≤ r.rating) := by
  induction df with
  | nil => exact absurd rfl h
  | cons a rest ih =>
    rcases hrest : nlargestRating rest with _ | b
    · have hnil : rest = [] := by
        cases rest with
        | nil => rfl
        | cons c cs =>
          exfalso
          simp only [nlargestRating] at hrest
          rcases h2 : nlargestRating cs with _ | d
          · rw [h2] at hrest; simp at hrest
          · rw [h2] at hrest
            by_cases h3 : d.rating > c.rating <;> simp [h3] at hrest
      subst hnil
      refine ⟨a, [], [], by simp [nlargestRating], rfl, ?_, ?_⟩
      · intro x hx; simp at hx
      · intro x hx
        rcases List.mem_singleton.mp hx with rfl
        exact le_refl _
    · have hrne : rest ≠ [] := by
        intro he; rw [he] at hrest; simp [nlargestRating] at hrest
      obtain ⟨r, pre, post, hb, heq, hpre, hall⟩ := ih hrne
      rw [hrest] at hb
      injection hb with hb
      subst hb
      by_cases hgt : b.rating > a.rating
      · refine ⟨b, a :: pre, post, ?_, ?_, ?_, ?_⟩
        · simp only [nlargestRating, hrest]
          rw [if_pos hgt]
        · rw [heq]; rfl
        · intro x hx
          rcases List.mem_cons.mp hx with rfl | hx
          · exact hgt
          · exact hpre x hx
        · intro x hx
          rcases List.mem_cons.mp hx with rfl | hx
          · exact le_of_lt hgt
          · exact (hall x hx)
      · push_neg at hgt
        refine ⟨a, [], rest, ?_, rfl, ?_, ?_⟩
        · simp only [nlargestRating, hrest]
          rw [if_neg (not_lt.mpr hgt)]
        · intro x hx; simp at hx
        · intro x hx
          rcases List.mem_cons.mp hx with rfl | hx
          · exact le_refl _
          · exact (hall x hx).trans hgt

/-- Claim C8, witness: the theorem applied to a concrete one-row table. -/
theorem c8_witness :
    ∃ r pre post, nlargestRating [(default : DFRow)] = some r ∧
      [(default : DFRow)] = pre ++ r :: post ∧
      (∀ x ∈ pre, x.rating < r.rating) ∧
      (∀ x ∈ [(default : DFRow)], x.rating ≤ r.rating) :=
  c8_highest_rated [default] (by simp)

/-!
## Claim C7
-/

/-- Claim C7, counterexample: a page row whose nested rating text is `"-1"`
and whose votes cell is `"-5"` produces a record in the final table with
rating `-1 < 0` and votes `-5 < 0` — both conversions parse signs, so the
claimed invariants `rating ≥ 0` and `votes ≥ 0` do not hold for every
record extraction can place in the table. -/
theorem c7_counterexample :
    (scrape_albums (.ok (.table [headerRow, rowNegative])) "u").map DFRow.rating = [-1] ∧
    (scrape_albums (.ok (.table [headerRow, rowNegative])) "u").map DFRow.votes = [-5] ∧
    ¬ ((0 : Rat) ≤ -1) ∧ ¬ ((0 : Int) ≤ -5) := by decide

/-- Helper: a numerator that is a natural number casts makes `mkRat`
nonnegative. -/
theorem mkRatNat_nonneg (n d : Nat) : 0 ≤ mkRat (n : Int) d :=
  Rat.mkRat_nonneg (Int.natCast_nonneg n) d

/-- Helper: the exponent tail only scales a natural mantissa, so its result
is nonnegative. -/
theorem parseExp_nonneg (n d : Nat) (l : List Char) (v : Rat)
    (h : parseExp n d l = some v) : 0 ≤ v := by
  cases l with
  | nil => simp [parseExp] at h
  | cons c r =>
    simp only [parseExp] at h
    split_ifs at h
    · obtain ⟨e, he, rfl⟩ := Option.map_eq_some'.mp h
      exact mkRatNat_nonneg _ _
    · obtain ⟨e, he, rfl⟩ := Option.map_eq_some'.mp h
      exact mkRatNat_nonneg _ _
    · obtain ⟨e, he, rfl⟩ := Option.map_eq_some'.mp h
      exact mkRatNat_nonneg _ _

/-- Helper: the mantissa-plus-exponent part is nonnegative. -/
theorem parseExpPart_nonneg (n d : Nat) (l : List Char) (v : Rat)
    (h : parseExpPart n d l = some v) : 0 ≤ v := by
  cases l with
  | nil =>
    simp only [parseExpPart, Option.some.injEq] at h
    rw [← h]
    exact mkRatNat_nonneg n d
  | cons c r =>
    simp only [parseExpPart] at h
    split_ifs at h
    exact parseExp_nonneg n d r v h

/-- Helper: a sign-free float literal parses to a nonnegative value. -/
theorem parseUFloat_nonneg (l : List Char) (v : Rat) (h : parseUFloat l = some v) :
    0 ≤ v := by
  unfold parseUFloat at h
  rcases hdw : l.dropWhile Char.isDigit with _ | ⟨c, r2⟩ <;> simp only [hdw] at h
  · split_ifs at h
    simp only [Option.some.injEq] at h
    rw [← h]
    exact mkRatNat_nonneg _ _
  · split_ifs at h
    all_goals exact parseExpPart_nonneg _ _ _ _ h

/-- Helper: every character of a regex match is a digit or a dot. -/
theorem matchNumber_chars (l : List Char) (x : Char) (hx : x ∈ matchNumber l) :
    x.isDigit = true ∨ x = '.' := by
  unfold matchNumber at hx
  by_cases hh : (l.dropWhile Char.isDigit).headD ' ' = '.'
  · rw [if_pos hh] at hx
    rcases List.mem_append.mp hx with h | h
    · exact Or.inl (List.mem_takeWhile_imp h)
    · rcases List.mem_cons.mp h with rfl | h
      · exact Or.inr rfl
      · exact Or.inl (List.mem_takeWhile_imp h)
  · rw [if_neg hh] at hx
    exact Or.inl (List.mem_takeWhile_imp hx)

/-- Helper: a regex match starting at a digit keeps that digit as its head. -/
theorem matchNumber_head (c : Char) (rest : List Char) (hc : c.isDigit = true) :
    ∃ cs, matchNumber (c :: rest) = c :: cs := by
  unfold matchNumber
  simp only [List.takeWhile_cons, List.dropWhile_cons, hc, if_true]
  by_cases hh : ((rest.dropWhile Char.isDigit).headD ' ') = '.'
  · rw [if_pos hh]
    exact ⟨_, rfl⟩
  · rw [if_neg hh]
    exact ⟨_, rfl⟩

/-- Helper: a successful `findNumberChars` result starts with a digit and
consists of digits and dots. -/
theorem findNumberChars_spec (l nc : List Char) (h : findNumberChars l = some nc) :
    (∃ c cs, nc = c :: cs ∧ c.isDigit = true) ∧ ∀ x ∈ nc, x.isDigit = true ∨ x = '.' := by
  induction l with
  | nil => simp [findNumberChars] at h
  | cons c rest ih =>
    simp only [findNumberChars] at h
    split_ifs at h with hc
    · simp only [Option.some.injEq] at h
      subst h
      obtain ⟨cs, hcs⟩ := matchNumber_head c rest hc
      exact ⟨⟨c, cs, hcs, hc⟩, fun x hx => matchNumber_chars (c :: rest) x hx⟩
    · exact ih h

/-- Helper: `dropWhile` is the identity on a list whose members all fail the
predicate. -/
theorem dropWhile_eq_self_of_all (p : Char → Bool) (l : List Char)
    (h : ∀ x ∈ l, p x = false) : l.dropWhile p = l := by
  cases l with
  | nil => rfl
  | cons a as => simp [List.dropWhile_cons, h a (List.mem_cons_self a as)]

/-- Helper: trimming is the identity on whitespace-free lists. -/
theorem trimChars_eq_self (l : List Char) (h : ∀ x ∈ l, x.isWhitespace = false) :
    trimChars l = l := by
  unfold trimChars
  rw [dropWhile_eq_self_of_all _ _ h,
    dropWhile_eq_self_of_all _ _ (fun x hx => h x (List.mem_reverse.mp hx))]
  exact List.reverse_reverse l

/-- Helper: a digit is not whitespace. -/
theorem isDigit_not_isWhitespace (c : Char) (h : c.isDigit = true) :
    ¬ c.isWhitespace = true := by
  simp only [Char.isWhitespace, Char.isDigit, Bool.or_eq_true, beq_iff_eq, decide_eq_true_eq,
    Bool.and_eq_true] at *
  rintro (((rfl | rfl) | rfl) | rfl) <;> revert h <;> decide

/-- Helper: digits and dots are not whitespace. -/
theorem digit_or_dot_not_ws (x : Char) (h : x.isDigit = true ∨ x = '.') :
    x.isWhitespace = false := by
  rcases h with h | rfl
  · cases hb : x.isWhitespace
    · rfl
    · exact absurd hb (isDigit_not_isWhitespace x h)
  · decide

/-- Helper: `float` applied to a regex match (digits and dots, leading
digit) yields a nonnegative value. -/
theorem pyFloat_digits_nonneg (nc : List Char) (c : Char) (cs : List Char)
    (hcons : nc = c :: cs) (hc : c.isDigit = true)
    (hmem : ∀ x ∈ nc, x.isDigit = true ∨ x = '.')
    (v : Rat) (h : pyFloat (String.mk nc) = some v) : 0 ≤ v := by
  have htl : (String.mk nc).toList = nc := rfl
  have htrim : trimChars nc = nc :=
    trimChars_eq_self nc (fun x hx => digit_or_dot_not_ws x (hmem x hx))
  unfold pyFloat at h
  rw [htl, htrim, hcons] at h
  have hminus : ¬ c = '-' := by
    intro he; subst he; exact absurd hc (by decide)
  have hplus : ¬ c = '+' := by
    intro he; subst he; exact absurd hc (by decide)
  simp only [if_neg hminus, if_neg hplus] at h
  exact parseUFloat_nonneg _ _ h

/-- Helper: the rating fallback never yields a negative value (the regex
pattern has no sign). -/
theorem ratingFallback_nonneg (c : Cell) : 0 ≤ ratingFallback c := by
  unfold ratingFallback
  rcases hn : findNumber c.text with _ | n
  · exact le_refl _
  · show (0 : Rat) ≤ match pyFloat n with | some v => v | none => (0 : Rat)
    rcases hpn : pyFloat n with _ | v
    · exact le_refl _
    · show (0 : Rat) ≤ v
      unfold findNumber at hn
      obtain ⟨nc, hnc, rfl⟩ := Option.map_eq_some'.mp hn
      obtain ⟨⟨ch, cs, hcons, hch⟩, hmem⟩ := findNumberChars_spec _ _ hnc
      exact pyFloat_digits_nonneg nc ch cs hcons hch hmem v hpn

/-- Helper: the extracted rating is nonnegative whenever the nested rating
text does not parse to a negative value. -/
theorem ratingOf_nonneg (c : Cell) (h : nonnegRatingDiv c = true) : 0 ≤ ratingOf c := by
  rcases hd : c.ratingDivText with _ | t
  · rw [ratingOf_eq_fallback c (Or.inl hd)]
    exact ratingFallback_nonneg c
  · rcases hpt : pyFloat t with _ | v
    · rw [ratingOf_eq_fallback c (Or.inr ⟨t, hd, Or.inl hpt⟩)]
      exact ratingFallback_nonneg c
    · by_cases hv0 : v = 0
      · subst hv0
        rw [ratingOf_eq_fallback c (Or.inr ⟨t, hd, Or.inr hpt⟩)]
        exact ratingFallback_nonneg c
      · rw [ratingOf_primary c t v hd hpt hv0]
        unfold nonnegRatingDiv at h
        simp only [hd, hpt] at h
        exact of_decide_eq_true h

/-- Helper: a successfully processed row's record carries the rating of
cell 2 and the parsed votes of cell 3. -/
theorem processRow_ok_inv (g : String) (r : Row) (a : Album)
    (h : processRow g r = RowResult.ok a) :
    a.rating = ratingOf (r.cells.getD 2 default) ∧
    pyInt (r.cells.getD 3 default).text = some a.votes := by
  unfold processRow at h
  rcases hcv : controversy_of r with _ | cv <;> simp only [hcv] at h
  · simp at h
  · by_cases h4 : r.cells.length < 4
    · rw [if_pos h4] at h
      simp at h
    · rw [if_neg h4] at h
      rcases hv : pyInt (r.cells.getD 3 default).text with _ | n <;> simp only [hv] at h
      · simp at h
      · simp only [RowResult.ok.injEq] at h
        subst h
        exact ⟨rfl, rfl⟩

/-- Claim C7, amended: records always carry (non-null) string `album` and
`artist` fields by construction, and a null `date` propagates to null
`year`, `month` and `decade`; the numeric invariants `rating ≥ 0` and
`votes ≥ 0` hold **provided** the page's nested rating texts and votes
cells do not parse to negative numbers (the source parses both with sign,
so a page carrying negative numerals violates them, as the counterexample
shows; the fallback rating scan alone can never go negative). -/
theorem c7_amended_invariants (url : String) (page : Page)
    (h : ∀ r ∈ pageRows page, nonnegRatingDiv (r.cells.getD 2 default) = true ∧
      nonnegVotesCell r = true) :
    ∀ rec ∈ scrape_albums (.ok page) url,
      0 ≤ rec.rating ∧ 0 ≤ rec.votes ∧
      (rec.date = none → rec.year = none ∧ rec.month = none ∧ rec.decade = none) := by
  intro rec hrec
  cases page with
  | noHeading => simp [scrape_albums, extract_album_data, create_dataframe] at hrec
  | noTable => simp [scrape_albums, extract_album_data, create_dataframe] at hrec
  | table trs =>
    rcases halb : extract_album_data (.table trs) url with _ | ⟨a0, rest⟩
    · simp only [scrape_albums, halb, create_dataframe] at hrec
      simp at hrec
    · simp only [scrape_albums, halb, create_dataframe] at hrec
      have hmm : rec ∈ (extract_album_data (.table trs) url).map enrich := by
        rw [halb]; exact hrec
      obtain ⟨a, ha, rfl⟩ := List.mem_map.mp hmm
      simp only [extract_album_data, List.mem_filterMap] at ha
      obtain ⟨row, hrow, hres⟩ := ha
      have hok : processRow (group_name_of url) row = RowResult.ok a := by
        cases hp : processRow (group_name_of url) row with
        | ok a2 =>
          rw [hp] at hres
          simp only [rowAlbumOpt, Option.some.injEq] at hres
          rw [hres]
        | skipped => rw [hp] at hres; simp [rowAlbumOpt] at hres
        | dropped => rw [hp] at hres; simp [rowAlbumOpt] at hres
      obtain ⟨hrat, hvot⟩ := processRow_ok_inv _ _ _ hok
      have hrow2 : row ∈ pageRows (.table trs) := by
        show row ∈ trs
        exact List.mem_of_mem_drop hrow
      obtain ⟨hnr, hnv⟩ := h row hrow2
      refine ⟨?_, ?_, ?_⟩
      · show 0 ≤ a.rating
        rw [hrat]
        exact ratingOf_nonneg _ hnr
      · show 0 ≤ a.votes
        unfold nonnegVotesCell at hnv
        simp only [hvot] at hnv
        exact of_decide_eq_true hnv
      · intro hdate
        have hd : a.date = none := hdate
        simp [enrich, hd]

/-- Claim C7, witness: the amended theorem applied to a concrete one-row
page whose numerals are nonnegative. -/
theorem c7_witness :
    0 ≤ goodDF.rating ∧ 0 ≤ goodDF.votes ∧
    (goodDF.date = none → goodDF.year = none ∧ goodDF.month = none ∧ goodDF.decade = none) :=
  c7_amended_invariants "u" (.table [headerRow, rowGood]) (by decide) goodDF (by decide)
